import Mathlib

/-!
Verification development for the ml-inference service of the soccer-analyzer
repository (`src/services/ml-inference/src/`): a shallow embedding in Lean 4 of
`detector.py`, `tracker.py` and the frame loop of `pipeline.py`, together with
theorems about the embedded definitions.

Numeric conventions: Python floats are embedded as rationals (ℚ); Python ints
as ℤ or ℕ where the code keeps them non-negative.  The third-party ByteTrack
tracker (`supervision.ByteTrack`) is not part of this repository; where a claim
depends on its behaviour it is modelled from the specification's description of
the Association Engine (see `byteUpdate` below), and the wrapper code around it
is embedded faithfully from `tracker.py`.
-/

namespace SoccerAnalyzer

/-- Embeds `detector.Detection`: bbox is (x, y, w, h) in normalized 0-1 coordinates. -/
structure Detection where
  bbox : ℚ × ℚ × ℚ × ℚ
  confidence : ℚ
  class_id : ℤ
  class_name : String
deriving DecidableEq, Repr

/-! ### Detector (`detector.py`, `PlayerBallDetector.detect`)

Only the argument handling and frame validation of `detect` are code of this
repository; the call `self.model.predict(...)` is the external YOLO model.  The
embedding therefore models the input frame abstractly (`PyFrame`) and returns
either the Python exception the code raises, or the point the code reaches:
an early empty return (no classes requested) or the YOLO inference call with
the class list and frame shape the code would pass. -/

/-- The Python exceptions raised by the embedded code paths.  `detector.py`
raises only `ValueError` in `detect`; there is no `InvalidFrameError` class
anywhere in the repository. -/
inductive PyErr where
  | valueError (msg : String)
deriving DecidableEq, Repr

/-- Abstraction of the `frame` argument of `detect`: `None`, a non-ndarray
value, or an ndarray with the given shape. -/
inductive PyFrame where
  | pynone : PyFrame
  | notArray : PyFrame
  | array (shape : List ℕ) : PyFrame
deriving DecidableEq, Repr

/-- Where `detect` ends up when it does not raise: the early `return []` taken
when no target class is requested, or the external YOLO inference call with the
class-id list and the validated frame shape. -/
inductive DetectOutcome where
  | emptyNoClasses : DetectOutcome
  | inference (classes : List ℤ) (shape : List ℕ) : DetectOutcome
deriving DecidableEq, Repr

/-- Embeds `PlayerBallDetector.PERSON_CLASS_ID`. -/
def PERSON_CLASS_ID : ℤ := 0

/-- Embeds `PlayerBallDetector.SPORTS_BALL_CLASS_ID`. -/
def SPORTS_BALL_CLASS_ID : ℤ := 32

/-- Embeds `PlayerBallDetector.detect` (detector.py lines 61-110) up to the
external `model.predict` call: builds the `classes` list, returns `[]` early if
it is empty, then validates the frame (`ValueError` if the frame is `None` or
not an ndarray, `ValueError` if it has fewer than 2 dimensions), and otherwise
proceeds to inference. -/
def PlayerBallDetector.detect (frame : PyFrame) (detect_players detect_ball : Bool) :
    Except PyErr DetectOutcome :=
  let classes : List ℤ :=
    (if detect_players then [PERSON_CLASS_ID] else []) ++
    (if detect_ball then [SPORTS_BALL_CLASS_ID] else [])
  if classes = [] then
    .ok .emptyNoClasses
  else
    match frame with
    | .pynone => .error (.valueError "Frame must be a valid numpy array")
    | .notArray => .error (.valueError "Frame must be a valid numpy array")
    | .array shape =>
        if shape.length < 2 then
          .error (.valueError "Frame must have at least 2 dimensions")
        else
          .ok (.inference classes shape)

/-- A well-formed input frame in the sense of the spec: an ndarray with at
least 2 dimensions. -/
def PyFrame.wellFormed : PyFrame → Prop
  | .array shape => 2 ≤ shape.length
  | _ => False

instance : DecidablePred PyFrame.wellFormed := by
  intro f
  cases f <;> simp [PyFrame.wellFormed] <;> infer_instance

/-! ### Association Engine

Modelled from the spec: the repository delegates all track association to the
external `supervision.ByteTrack` library (constructed in
`ObjectTracker.__init__`, invoked as `self.tracker.update_with_detections`),
whose algorithm is not code of this repository.  The engine below follows the
specification's §4.2 per-frame update: constant-velocity prediction, an
IoU cost with pairs below the match threshold excluded, two-phase greedy
matching (high-confidence pass then low-confidence recovery pass, ties broken
by highest IoU then lowest track id), miss-counter aging with eviction past the
buffer, and fresh monotonic ids for new `Tentative` tracks. -/

/-- Track lifecycle states (spec §3). `Removed` tracks are evicted from the
engine's collection, so the state is terminal. -/
inductive TrackState where
  | Tentative
  | Confirmed
  | Lost
  | Removed
deriving DecidableEq, Repr

/-- A pixel-coordinate bounding box in xyxy form, as passed to ByteTrack. -/
structure Box where
  x1 : ℚ
  y1 : ℚ
  x2 : ℚ
  y2 : ℚ
deriving DecidableEq, Repr

/-- One row of a `supervision.Detections` value: pixel xyxy box, confidence,
class id. -/
structure SvDet where
  box : Box
  conf : ℚ
  class_id : ℤ
deriving DecidableEq, Repr

/-- Modelled from the spec: a Track entity (spec §3) — unique id, current box,
motion state (velocity estimate per coordinate), confidence, miss counter,
lifecycle state. -/
structure Track where
  id : ℕ
  box : Box
  vel : ℚ × ℚ × ℚ × ℚ
  conf : ℚ
  class_id : ℤ
  misses : ℕ
  state : TrackState
deriving DecidableEq, Repr

/-- Modelled from the spec: the Association Engine's state — thresholds, the
live track collection (iterated in stored order, kept ascending by id for
deterministic iteration), and the fresh-id counter. -/
structure EngineState where
  track_thresh : ℚ
  match_thresh : ℚ
  track_buffer : ℕ
  frame_rate : ℕ
  tracks : List Track
  nextId : ℕ
deriving DecidableEq, Repr

def Box.area (b : Box) : ℚ := max 0 (b.x2 - b.x1) * max 0 (b.y2 - b.y1)

/-- Intersection-over-union of two boxes (spec glossary). -/
def iou (a b : Box) : ℚ :=
  let iw := max 0 (min a.x2 b.x2 - max a.x1 b.x1)
  let ih := max 0 (min a.y2 b.y2 - max a.y1 b.y1)
  let inter := iw * ih
  let uni := a.area + b.area - inter
  if uni = 0 then 0 else inter / uni

/-- Constant-velocity extrapolation of a track's box (spec §4.2 step 1). -/
def Track.predictBox (t : Track) : Box :=
  { x1 := t.box.x1 + t.vel.1
    y1 := t.box.y1 + t.vel.2.1
    x2 := t.box.x2 + t.vel.2.2.1
    y2 := t.box.y2 + t.vel.2.2.2 }

/-- A candidate (track, detection) pair with its IoU score; `detIdx` is the
detection's index in the frame's detection list. -/
structure Cand where
  score : ℚ
  track : Track
  detIdx : ℕ
  det : SvDet
deriving DecidableEq, Repr

/-- Candidate `a` beats `b`: strictly higher IoU, ties broken by lowest track id, then
lowest detection index (spec §4.2 step 3). -/
def Cand.beats (a b : Cand) : Bool :=
  decide (b.score < a.score ∨
    (a.score = b.score ∧
      (a.track.id < b.track.id ∨ (a.track.id = b.track.id ∧ a.detIdx < b.detIdx))))

/-- All matchable pairs: IoU of the predicted track box and the detection box,
pairs below the match threshold excluded (spec §4.2 step 2). -/
def candidates (matchThresh : ℚ) (tracks : List Track) (dets : List (ℕ × SvDet)) :
    List Cand :=
  tracks.flatMap fun t =>
    dets.filterMap fun p =>
      let s := iou t.predictBox p.2.box
      if matchThresh ≤ s then some ⟨s, t, p.1, p.2⟩ else none

/-- Best remaining candidate under `Cand.beats`. -/
def pickBest (l : List Cand) : Option Cand :=
  l.foldl
    (fun acc c =>
      match acc with
      | none => some c
      | some b => if c.beats b then some c else some b)
    none

/-- Greedy least-cost matching: repeatedly take the best remaining pair and
retire its track and detection.  Fuel is the number of tracks, which bounds the
number of rounds. -/
def greedyMatch (matchThresh : ℚ) : ℕ → List Track → List (ℕ × SvDet) →
    List (Track × ℕ × SvDet)
  | 0, _, _ => []
  | fuel + 1, tracks, dets =>
    match pickBest (candidates matchThresh tracks dets) with
    | none => []
    | some c =>
        (c.track, c.detIdx, c.det) ::
          greedyMatch matchThresh fuel
            (tracks.filter fun t => t.id != c.track.id)
            (dets.filter fun p => p.1 != c.detIdx)

/-- A matched track: motion state updated from the matched detection, miss
counter reset, `Tentative` tracks confirmed (spec §4.2 steps 5-6). -/
def matchedTrack (t : Track) (d : SvDet) : Track :=
  { t with
    box := d.box
    vel := (d.box.x1 - t.box.x1, d.box.y1 - t.box.y1,
            d.box.x2 - t.box.x2, d.box.y2 - t.box.y2)
    conf := d.conf
    misses := 0
    state := .Confirmed }

/-- The miss-increment path for an unmatched track: increment the miss counter
and mark `Lost`; evict (`Removed`) once the counter exceeds the buffer
(spec §4.2 step 4). -/
def ageTrack (buffer : ℕ) (t : Track) : Option Track :=
  if buffer < t.misses + 1 then none
  else some { t with misses := t.misses + 1, state := .Lost }

/-- Advance one existing track through a frame given the frame's matches. -/
def stepTrack (mts : List (Track × ℕ × SvDet)) (buffer : ℕ) (t : Track) :
    Option Track :=
  match mts.find? (fun m => m.1.id == t.id) with
  | some m => some (matchedTrack t m.2.2)
  | none => ageTrack buffer t

/-- A freshly spawned `Tentative` track (spec §4.2 step 5). -/
def newTrack (id : ℕ) (d : SvDet) : Track :=
  { id := id
    box := d.box
    vel := (0, 0, 0, 0)
    conf := d.conf
    class_id := d.class_id
    misses := 0
    state := .Tentative }

/-- The first-pass detections: confidence at least the activation threshold. -/
def highDets (s : EngineState) (idets : List (ℕ × SvDet)) : List (ℕ × SvDet) :=
  idets.filter fun p => decide (s.track_thresh ≤ p.2.conf)

/-- The second-pass detections: confidence below the activation threshold. -/
def lowDets (s : EngineState) (idets : List (ℕ × SvDet)) : List (ℕ × SvDet) :=
  idets.filter fun p => decide (p.2.conf < s.track_thresh)

/-- Two-phase matching (spec §4.2 step 3): greedily match high-confidence
detections against all tracks, then low-confidence detections against the
still-unmatched tracks. -/
def matchesOf (s : EngineState) (idets : List (ℕ × SvDet)) :
    List (Track × ℕ × SvDet) :=
  let m1 := greedyMatch s.match_thresh s.tracks.length s.tracks (highDets s idets)
  let rest := s.tracks.filter fun t => !(m1.any fun m => m.1.id == t.id)
  m1 ++ greedyMatch s.match_thresh rest.length rest (lowDets s idets)

/-- High-confidence detections left unmatched after both passes; these spawn
new tracks (spec §4.2 step 5). -/
def unmatchedHigh (s : EngineState) (idets : List (ℕ × SvDet)) :
    List (ℕ × SvDet) :=
  (highDets s idets).filter fun p =>
    !(((matchesOf s idets).map fun m => m.2.1).contains p.1)

/-- The `Tentative` tracks spawned this frame, with consecutive fresh ids
starting at the engine's id counter. -/
def freshTracks (s : EngineState) (idets : List (ℕ × SvDet)) : List Track :=
  (unmatchedHigh s idets).enum.map fun q => newTrack (s.nextId + q.1) q.2.2

/-- The track id assigned to the detection at index `i` this frame, if any:
the id of the track it was matched to, or the fresh id of the track it
spawned. -/
def assignOf (s : EngineState) (idets : List (ℕ × SvDet)) (i : ℕ) : Option ℕ :=
  match (matchesOf s idets).find? (fun m => m.2.1 == i) with
  | some m => some m.1.id
  | none =>
    match (unmatchedHigh s idets).enum.find? (fun q => q.2.1 == i) with
    | some q => some (s.nextId + q.1)
    | none => none

/-- Modelled from the spec: one per-frame update of the Association Engine
(ByteTrack's `update_with_detections`).  Returns the frame's detections that
received a track id (matched to an existing track or spawning a new one),
paired with that id, and the new engine state: matched tracks updated,
unmatched tracks aged or evicted, fresh tracks appended, id counter bumped
past the fresh ids. -/
def byteUpdate (s : EngineState) (dets : List SvDet) :
    List (SvDet × ℕ) × EngineState :=
  let idets := dets.enum
  (idets.filterMap fun p => (assignOf s idets p.1).map fun tid => (p.2, tid),
   { s with
     tracks :=
       s.tracks.filterMap (stepTrack (matchesOf s idets) s.track_buffer) ++
         freshTracks s idets
     nextId := s.nextId + (unmatchedHigh s idets).length })

/-! ### ObjectTracker wrapper (`tracker.py`) -/

/-- Embeds `tracker.TrackedDetection`. -/
structure TrackedDetection where
  track_id : String
  frame_number : ℕ
  timestamp : ℚ
  bbox : ℚ × ℚ × ℚ × ℚ
  center : ℚ × ℚ
  confidence : ℚ
  class_name : String
deriving DecidableEq, Repr

/-- Embeds `tracker.ObjectTracker`: the wrapped ByteTrack engine plus the wrapper's
own `frame_rate` and `current_frame` fields. -/
structure ObjectTracker where
  engine : EngineState
  frame_rate : ℕ
  current_frame : ℕ
deriving DecidableEq, Repr

/-- Embeds `ObjectTracker.__init__`: constructs the ByteTrack engine from the given
thresholds and starts the frame counter at 0. -/
def mkObjectTracker (track_activation_threshold : ℚ) (lost_track_buffer : ℕ)
    (minimum_matching_threshold : ℚ) (frame_rate : ℕ) : ObjectTracker :=
  { engine :=
      { track_thresh := track_activation_threshold
        match_thresh := minimum_matching_threshold
        track_buffer := lost_track_buffer
        frame_rate := frame_rate
        tracks := []
        nextId := 1 }
    frame_rate := frame_rate
    current_frame := 0 }

/-- Embeds `ObjectTracker.reset`. -/
def ObjectTracker.reset (t : ObjectTracker) : ObjectTracker :=
  { t with
    engine := { t.engine with tracks := [], nextId := 1 }
    current_frame := 0 }

/-- The virtual frame size used by the wrapper (tracker.py line 85). -/
def frame_width : ℚ := 1920

def frame_height : ℚ := 1080

/-- Normalized-to-pixel conversion of one detection (tracker.py lines 96-106). -/
def toSvDet (d : Detection) : SvDet :=
  { box :=
      { x1 := d.bbox.1 * frame_width
        y1 := d.bbox.2.1 * frame_height
        x2 := (d.bbox.1 + d.bbox.2.2.1) * frame_width
        y2 := (d.bbox.2.1 + d.bbox.2.2.2) * frame_height }
    conf := d.confidence
    class_id := d.class_id }

/-- The `class_id_to_name` mapping with its `"person"` default
(tracker.py lines 130, 155-158). -/
def class_id_to_name (cid : ℤ) : String :=
  if cid = 0 then "person" else if cid = 32 then "sports ball" else "person"

/-- Pixel-to-normalized conversion of one tracked row into a
`TrackedDetection` (tracker.py lines 141-174). -/
def toTrackedDetection (cf : ℕ) (timestamp : ℚ) (p : SvDet × ℕ) :
    TrackedDetection :=
  let x_norm := p.1.box.x1 / frame_width
  let y_norm := p.1.box.y1 / frame_height
  let w_norm := (p.1.box.x2 - p.1.box.x1) / frame_width
  let h_norm := (p.1.box.y2 - p.1.box.y1) / frame_height
  { track_id := "track_" ++ toString p.2
    frame_number := cf
    timestamp := timestamp
    bbox := (x_norm, y_norm, w_norm, h_norm)
    center := (x_norm + w_norm / 2, y_norm + h_norm / 2)
    confidence := p.1.conf
    class_name := class_id_to_name p.1.class_id }

/-- The inner tracker call of `ObjectTracker.update`: takes the engine state
and the converted detections, and either returns the tracked rows and new
engine state or raises (the `except` branch of tracker.py lines 116-120). -/
def Backend : Type :=
  EngineState → List SvDet → Except String (List (SvDet × ℕ) × EngineState)

/-- Resolution of `ObjectTracker.update`'s frame number (tracker.py lines
75-78): the explicit argument when given, otherwise the incremented internal
counter. -/
def resolveFrame (current_frame : ℕ) : Option ℕ → ℕ
  | some n => n
  | none => current_frame + 1

/-- Embeds `ObjectTracker.update` (tracker.py lines 60-176), parameterized by the
wrapped tracker call: resolve the frame number (explicit argument or internal
counter increment), compute the timestamp, convert detections to pixel
coordinates (an empty list stays empty, but the tracker is still invoked), run
the wrapped tracker — returning `[]` if it raises — and convert the tracked
rows back. -/
def ObjectTracker.updateWith (backend : Backend) (t : ObjectTracker)
    (detections : List Detection) (frame_number : Option ℕ) :
    List TrackedDetection × ObjectTracker :=
  let cf : ℕ := resolveFrame t.current_frame frame_number
  let timestamp := (cf : ℚ) / (t.frame_rate : ℚ)
  let sv_detections :=
    if detections.isEmpty then [] else detections.map toSvDet
  match backend t.engine sv_detections with
  | .error _ => ([], { t with current_frame := cf })
  | .ok (tracked, engine2) =>
      (tracked.map (toTrackedDetection cf timestamp),
       { t with engine := engine2, current_frame := cf })

/-- The non-raising run of the modelled engine. -/
def byteBackend : Backend := fun s dets => .ok (byteUpdate s dets)

/-- Embeds `ObjectTracker.update` with the modelled ByteTrack as the wrapped call. -/
def ObjectTracker.update (t : ObjectTracker) (detections : List Detection)
    (frame_number : Option ℕ) : List TrackedDetection × ObjectTracker :=
  ObjectTracker.updateWith byteBackend t detections frame_number

/-- Run a tracker over a whole input sequence of (detections, frame number)
pairs, collecting each call's output. -/
def ObjectTracker.run (t : ObjectTracker) :
    List (List Detection × Option ℕ) → List (List TrackedDetection) × ObjectTracker
  | [] => ([], t)
  | f :: fs =>
    let step := t.update f.1 f.2
    let rest := step.2.run fs
    (step.1 :: rest.1, rest.2)

/-! ### MultiClassTracker (`tracker.py` lines 179-252) -/

/-- The result dictionary of `MultiClassTracker.update`, with its two keys
(the players label and the ball label) as fields. -/
structure MultiClassResult where
  players : List TrackedDetection
  ball : List TrackedDetection
deriving DecidableEq, Repr

/-- Embeds `tracker.MultiClassTracker`: one independent `ObjectTracker` per class. -/
structure MultiClassTracker where
  player_tracker : ObjectTracker
  ball_tracker : ObjectTracker
deriving DecidableEq, Repr

/-- Embeds `MultiClassTracker.__init__` with the default per-class configs
(tracker.py lines 195-204). -/
def mkMultiClassTracker (frame_rate : ℕ) : MultiClassTracker :=
  { player_tracker := mkObjectTracker (3/10) 30 (8/10) frame_rate
    ball_tracker := mkObjectTracker (1/4) 10 (7/10) frame_rate }

/-- Embeds `MultiClassTracker.update` (tracker.py lines 226-252): filter the
detections by class name and delegate each class to its own tracker. -/
def MultiClassTracker.update (m : MultiClassTracker) (detections : List Detection)
    (frame_number : Option ℕ) : MultiClassResult × MultiClassTracker :=
  let player_detections := detections.filter fun d => d.class_name == "person"
  let ball_detections := detections.filter fun d => d.class_name == "sports ball"
  let tp := m.player_tracker.update player_detections frame_number
  let tb := m.ball_tracker.update ball_detections frame_number
  ({ players := tp.1, ball := tb.1 },
   { player_tracker := tp.2, ball_tracker := tb.2 })

/-- Run the modelled Association Engine alone over a sequence of frames of
converted detections, keeping only the engine state. -/
def runEngine (s : EngineState) (frames : List (List SvDet)) : EngineState :=
  frames.foldl (fun acc d => (byteUpdate acc d).2) s

/-! ### Pipeline frame loop (`pipeline.py`, `TrackingPipeline.process_video`)

The loop is embedded abstractly over frame contents: detection and tracking
results do not influence the loop control, the processed-frame count, or the
progress callback arguments, so frames are represented by `Unit` and the loop
state carries only the counters and the trace of progress-callback
invocations. -/

/-- The fields of `pipeline.PipelineConfig` the frame loop reads. -/
structure PipelineConfig where
  skip_frames : ℕ
  max_frames : Option ℕ
deriving DecidableEq, Repr

/-- Computes `total_frames` after the max-frames cap (pipeline.py lines 117-124).
`if self.config.max_frames:` is Python truthiness, so the cap applies only
when `max_frames` is neither `None` nor `0`. -/
def effectiveTotalFrames (cfg : PipelineConfig) (raw : ℕ) : ℕ :=
  match cfg.max_frames with
  | some m => if m ≠ 0 then min raw m else raw
  | none => raw

/-- The loop variables of `process_video` plus the trace of progress-callback
invocations: each `(processed_frames, total_frames)` argument pair passed to
the caller-supplied callback, in call order. -/
structure LoopState where
  frame_number : ℕ
  processed_frames : ℕ
  calls : List (ℕ × ℕ)
deriving DecidableEq, Repr

/-- The `while cap.isOpened() and processed_frames < total_frames` loop of
`process_video` (pipeline.py lines 152-220): `frames` is the sequence of
frames `cap.read()` can still deliver (a read past the end returns
`ret == False` and breaks the loop).  A frame skipped by the stride test
advances only `frame_number`; a processed frame advances both counters and
invokes the progress callback with `(processed_frames, total_frames)`. -/
def processLoop (skip_frames total_frames : ℕ) :
    List Unit → LoopState → LoopState
  | [], s => s
  | _ :: fs, s =>
    if s.processed_frames < total_frames then
      if 0 < skip_frames ∧ s.frame_number % (skip_frames + 1) ≠ 0 then
        processLoop skip_frames total_frames fs
          { s with frame_number := s.frame_number + 1 }
      else
        processLoop skip_frames total_frames fs
          { frame_number := s.frame_number + 1
            processed_frames := s.processed_frames + 1
            calls := s.calls ++ [(s.processed_frames + 1, total_frames)] }
    else s

/-- Runs the whole frame loop of `process_video`: counters start at zero and
`total_frames` is the capped video frame count (`raw` is the container's
reported `CAP_PROP_FRAME_COUNT`). -/
def processVideoLoop (cfg : PipelineConfig) (raw : ℕ) (frames : List Unit) :
    LoopState :=
  processLoop cfg.skip_frames (effectiveTotalFrames cfg raw) frames
    { frame_number := 0, processed_frames := 0, calls := [] }

/-- The canonical callback trace after `p` processed frames: the callback is
invoked once per processed frame, with the running count and the total. -/
def callTrace (p total : ℕ) : List (ℕ × ℕ) :=
  (List.range p).map fun k => (k + 1, total)

/-- The progress value computed by `process_tracking_job.progress_callback`
(api.py lines 448-451): `current / total` guarded against a zero total. -/
def progressOf (current total : ℕ) : ℚ :=
  if 0 < total then (current : ℚ) / (total : ℚ) else 0

/-- A wrapped tracker call that raises on every input, for exercising the
`except` branch of `ObjectTracker.update`. -/
def raisingBackend (msg : String) : Backend := fun _ _ => .error msg

/-- The engine's id discipline: the live track collection is strictly
ascending by id (so ids are unique and iteration order deterministic), and
every live id is below the fresh-id counter. -/
def EngineInv (s : EngineState) : Prop :=
  s.tracks.Pairwise (fun a b => a.id < b.id) ∧ ∀ t ∈ s.tracks, t.id < s.nextId

instance (s : EngineState) : Decidable (EngineInv s) := by
  unfold EngineInv
  infer_instance

/-- A sample converted detection, used to instantiate theorems. -/
def exampleSv : SvDet :=
  { box := { x1 := 100, y1 := 100, x2 := 200, y2 := 250 }
    conf := 1
    class_id := 0 }

/-- A sample engine state whose id counter has already moved past ids 1 and 2
(both dead), used to instantiate theorems. -/
def exampleEngine : EngineState :=
  { track_thresh := 1
    match_thresh := 1
    track_buffer := 30
    frame_rate := 30
    tracks := []
    nextId := 3 }

/-- A sample person detection, used to instantiate theorems. -/
def examplePerson : Detection :=
  { bbox := (0, 0, 1, 1)
    confidence := 1
    class_id := 0
    class_name := "person" }

/-- A sample tracker with integral thresholds, used to instantiate theorems. -/
def exampleTracker : ObjectTracker := mkObjectTracker 1 30 1 30

/-! ## Theorems -/

/-- C5 counterexample: `detect` called with both class flags off returns the
empty detection list before ever validating the frame, so a `None` frame — not
a well-formed image buffer — does not make the call fail. -/
theorem detect_skips_validation_when_no_classes :
    PlayerBallDetector.detect PyFrame.pynone false false = .ok .emptyNoClasses ∧
      ¬ PyFrame.pynone.wellFormed :=
  ⟨rfl, by decide⟩

/-- C5 (amended): whenever at least one detection class is requested and the
input frame is not a well-formed 2-D+ image buffer, `detect` raises a Python
`ValueError` (the repository defines no `InvalidFrameError`) rather than
returning detections. -/
theorem detect_invalid_frame_raises (frame : PyFrame) (dp db : Bool)
    (hcls : dp = true ∨ db = true) (hbad : ¬ frame.wellFormed) :
    ∃ msg, PlayerBallDetector.detect frame dp db = .error (.valueError msg) := by
  rcases frame with _ | _ | shape
  · exact ⟨"Frame must be a valid numpy array", by
      rcases hcls with h | h <;> subst h <;>
        simp [PlayerBallDetector.detect, List.append_eq_nil]⟩
  · exact ⟨"Frame must be a valid numpy array", by
      rcases hcls with h | h <;> subst h <;>
        simp [PlayerBallDetector.detect, List.append_eq_nil]⟩
  · refine ⟨"Frame must have at least 2 dimensions", ?_⟩
    have hlen : shape.length < 2 := by
      simpa [PyFrame.wellFormed, Nat.lt_iff_add_one_le] using hbad
    rcases hcls with h | h <;> subst h <;>
      simp [PlayerBallDetector.detect, List.append_eq_nil, hlen]

/-- C5 witness: a `None` frame with players requested raises. -/
theorem detect_invalid_frame_raises_witness :
    (true = true ∨ true = true) ∧ ¬ PyFrame.pynone.wellFormed ∧
      ∃ msg, PlayerBallDetector.detect PyFrame.pynone true true =
        .error (.valueError msg) :=
  ⟨Or.inl rfl, by decide,
    detect_invalid_frame_raises PyFrame.pynone true true (Or.inl rfl) (by decide)⟩

/-- C2: `MultiClassTracker.update` routes exactly the `"person"`-named
detections (in input order) to the player engine and exactly the
`"sports ball"`-named ones to the ball engine, two independently configured
engines, and the result maps the players label and the ball label to the
respective engine's output. -/
theorem multiClassTracker_partitions (m : MultiClassTracker)
    (dets : List Detection) (fn : Option ℕ) (d : Detection) (fr : ℕ) :
    (m.update dets fn).1.players =
      (m.player_tracker.update (dets.filter fun x => x.class_name == "person") fn).1 ∧
    (m.update dets fn).1.ball =
      (m.ball_tracker.update (dets.filter fun x => x.class_name == "sports ball") fn).1 ∧
    (m.update dets fn).2.player_tracker =
      (m.player_tracker.update (dets.filter fun x => x.class_name == "person") fn).2 ∧
    (m.update dets fn).2.ball_tracker =
      (m.ball_tracker.update (dets.filter fun x => x.class_name == "sports ball") fn).2 ∧
    (d ∈ dets.filter (fun x => x.class_name == "person") ↔
      d ∈ dets ∧ d.class_name = "person") ∧
    (d ∈ dets.filter (fun x => x.class_name == "sports ball") ↔
      d ∈ dets ∧ d.class_name = "sports ball") ∧
    (mkMultiClassTracker fr).player_tracker = mkObjectTracker (3/10) 30 (8/10) fr ∧
    (mkMultiClassTracker fr).ball_tracker = mkObjectTracker (1/4) 10 (7/10) fr := by
  refine ⟨rfl, rfl, rfl, rfl, ?_, ?_, rfl, rfl⟩ <;>
    simp [List.mem_filter]

/-- C4: the embedded tracker is a pure function of its construction parameters
and its input sequence, so two runs of freshly constructed trackers with
identical parameters over an identical input sequence produce identical output
sequences, and in particular identical track-id assignment sequences. -/
theorem tracker_two_runs_identical (a : ℚ) (b : ℕ) (c : ℚ) (r : ℕ)
    (seq : List (List Detection × Option ℕ)) :
    (mkObjectTracker a b c r).run seq = (mkObjectTracker a b c r).run seq ∧
    ((mkObjectTracker a b c r).run seq).1.map (List.map TrackedDetection.track_id) =
      ((mkObjectTracker a b c r).run seq).1.map (List.map TrackedDetection.track_id) :=
  ⟨rfl, rfl⟩

/-- C8: every `TrackedDetection` emitted by `ObjectTracker.update` carries
`timestamp = frame_number / frame_rate`, with `frame_number` the resolved
current frame stamped on the detection itself. -/
theorem update_timestamp_eq (t : ObjectTracker) (dets : List Detection)
    (fn : Option ℕ) (td : TrackedDetection) (h : td ∈ (t.update dets fn).1) :
    td.timestamp = (td.frame_number : ℚ) / (t.frame_rate : ℚ) := by
  unfold ObjectTracker.update ObjectTracker.updateWith byteBackend at h
  rcases List.mem_map.1 h with ⟨p, _, rfl⟩
  rfl

/-- C8 witness: one confirmed detection at frame 3 of a 30 fps tracker. -/
theorem update_timestamp_eq_witness :
    toTrackedDetection 3 (((3 : ℕ) : ℚ) / ((30 : ℕ) : ℚ)) (toSvDet examplePerson, 1) ∈
      (exampleTracker.update [examplePerson] (some 3)).1 ∧
    (toTrackedDetection 3 (((3 : ℕ) : ℚ) / ((30 : ℕ) : ℚ))
        (toSvDet examplePerson, 1)).timestamp =
      ((toTrackedDetection 3 (((3 : ℕ) : ℚ) / ((30 : ℕ) : ℚ))
        (toSvDet examplePerson, 1)).frame_number : ℚ) /
        (exampleTracker.frame_rate : ℚ) := by
  have hout : (exampleTracker.update [examplePerson] (some 3)).1 =
      [toTrackedDetection 3 (((3 : ℕ) : ℚ) / ((30 : ℕ) : ℚ))
        (toSvDet examplePerson, 1)] := rfl
  have hm : toTrackedDetection 3 (((3 : ℕ) : ℚ) / ((30 : ℕ) : ℚ))
      (toSvDet examplePerson, 1) ∈
      (exampleTracker.update [examplePerson] (some 3)).1 := by
    rw [hout]
    exact List.mem_singleton.2 rfl
  exact ⟨hm, update_timestamp_eq exampleTracker [examplePerson] (some 3) _ hm⟩

/-- C9: when the wrapped tracker call raises, `ObjectTracker.update` returns
the empty list instead of propagating the error, and the internal frame
counter has already been advanced to the resolved frame number. -/
theorem update_swallows_backend_error (backend : Backend) (t : ObjectTracker)
    (dets : List Detection) (fn : Option ℕ) (e : String)
    (h : backend t.engine (if dets.isEmpty then [] else dets.map toSvDet) = .error e) :
    (ObjectTracker.updateWith backend t dets fn).1 = [] ∧
    (ObjectTracker.updateWith backend t dets fn).2.current_frame =
      resolveFrame t.current_frame fn := by
  unfold ObjectTracker.updateWith
  have h' : backend t.engine (if dets = [] then [] else List.map toSvDet dets) =
      Except.error e := by
    simpa using h
  simp [h']

/-- C9 witness: a backend that always raises, on a fresh tracker. -/
theorem update_swallows_backend_error_witness :
    raisingBackend "ByteTrack update failed"
        (mkObjectTracker (3/10) 30 (8/10) 30).engine
        (if ([] : List Detection).isEmpty then [] else ([] : List Detection).map toSvDet) =
      .error "ByteTrack update failed" ∧
    (ObjectTracker.updateWith (raisingBackend "ByteTrack update failed")
        (mkObjectTracker (3/10) 30 (8/10) 30) [] none).1 = [] ∧
    (ObjectTracker.updateWith (raisingBackend "ByteTrack update failed")
        (mkObjectTracker (3/10) 30 (8/10) 30) [] none).2.current_frame =
      resolveFrame (mkObjectTracker (3/10) 30 (8/10) 30).current_frame none :=
  ⟨rfl, update_swallows_backend_error (raisingBackend "ByteTrack update failed")
    (mkObjectTracker (3/10) 30 (8/10) 30) [] none "ByteTrack update failed" rfl⟩

/-- C10: detections whose class name is neither `"person"` nor
`"sports ball"` are invisible to `MultiClassTracker.update` — dropping them
from the input changes nothing about the result or the successor state. -/
theorem multiClassTracker_discards_other_classes (m : MultiClassTracker)
    (dets : List Detection) (fn : Option ℕ) :
    m.update dets fn =
      m.update
        (dets.filter fun d =>
          d.class_name == "person" || d.class_name == "sports ball") fn := by
  unfold MultiClassTracker.update
  have h1 : (dets.filter fun d =>
        d.class_name == "person" || d.class_name == "sports ball").filter
          (fun d => d.class_name == "person") =
      dets.filter (fun d => d.class_name == "person") := by
    rw [List.filter_filter]
    refine List.filter_congr fun d _ => ?_
    cases h : d.class_name == "person" <;> simp [h]
  have h2 : (dets.filter fun d =>
        d.class_name == "person" || d.class_name == "sports ball").filter
          (fun d => d.class_name == "sports ball") =
      dets.filter (fun d => d.class_name == "sports ball") := by
    rw [List.filter_filter]
    refine List.filter_congr fun d _ => ?_
    cases h : d.class_name == "sports ball" <;> simp [h]
  rw [h1, h2]

/-! ### Frame-loop lemmas -/

lemma processLoop_processed_le (skip total : ℕ) :
    ∀ (frames : List Unit) (s : LoopState),
      (processLoop skip total frames s).processed_frames ≤
        max s.processed_frames total := by
  intro frames
  induction frames with
  | nil => intro s; exact Nat.le_max_left _ _
  | cons f fs ih =>
    intro s
    simp only [processLoop]
    by_cases hp : s.processed_frames < total
    · rw [if_pos hp]
      by_cases hskip : 0 < skip ∧ s.frame_number % (skip + 1) ≠ 0
      · rw [if_pos hskip]
        exact ih _
      · rw [if_neg hskip]
        refine le_trans (ih _) ?_
        have : s.processed_frames + 1 ≤ total := hp
        simp only [max_le_iff]
        exact ⟨le_trans this (Nat.le_max_right _ _), Nat.le_max_right _ _⟩
    · rw [if_neg hp]
      exact Nat.le_max_left _ _

lemma processLoop_processed_le_length (skip total : ℕ) :
    ∀ (frames : List Unit) (s : LoopState),
      (processLoop skip total frames s).processed_frames ≤
        s.processed_frames + frames.length := by
  intro frames
  induction frames with
  | nil => intro s; simp [processLoop]
  | cons f fs ih =>
    intro s
    simp only [processLoop, List.length_cons]
    by_cases hp : s.processed_frames < total
    · rw [if_pos hp]
      by_cases hskip : 0 < skip ∧ s.frame_number % (skip + 1) ≠ 0
      · rw [if_pos hskip]
        refine le_trans (ih _) ?_
        show s.processed_frames + fs.length ≤ s.processed_frames + (fs.length + 1)
        omega
      · rw [if_neg hskip]
        refine le_trans (ih _) ?_
        show s.processed_frames + 1 + fs.length ≤ s.processed_frames + (fs.length + 1)
        omega
    · rw [if_neg hp]
      omega

lemma processLoop_calls_trace (skip total : ℕ) :
    ∀ (frames : List Unit) (s : LoopState),
      s.calls = callTrace s.processed_frames total →
      (processLoop skip total frames s).calls =
        callTrace (processLoop skip total frames s).processed_frames total := by
  intro frames
  induction frames with
  | nil => intro s hs; exact hs
  | cons f fs ih =>
    intro s hs
    simp only [processLoop]
    by_cases hp : s.processed_frames < total
    · rw [if_pos hp]
      by_cases hskip : 0 < skip ∧ s.frame_number % (skip + 1) ≠ 0
      · rw [if_pos hskip]
        exact ih _ hs
      · rw [if_neg hskip]
        refine ih _ ?_
        simp only [hs, callTrace, List.range_succ, List.map_append, List.map_cons,
          List.map_nil]
    · rw [if_neg hp]
      exact hs

/-- C7: with a caller-supplied progress callback, the frame loop's callback
trace is exactly one invocation per processed frame, the `k`-th carrying
`(k, total_frames)`; every reported pair has `current` between 1 and `total`,
and the progress the api-layer callback computes from it is
`current / total`. -/
theorem progress_callback_per_frame (cfg : PipelineConfig) (raw : ℕ)
    (frames : List Unit) (c : ℕ × ℕ)
    (hc : c ∈ (processVideoLoop cfg raw frames).calls) :
    (processVideoLoop cfg raw frames).calls =
      callTrace (processVideoLoop cfg raw frames).processed_frames
        (effectiveTotalFrames cfg raw) ∧
    c.2 = effectiveTotalFrames cfg raw ∧
    1 ≤ c.1 ∧ c.1 ≤ c.2 ∧
    progressOf c.1 c.2 = (c.1 : ℚ) / (c.2 : ℚ) := by
  have htrace :
      (processVideoLoop cfg raw frames).calls =
        callTrace (processVideoLoop cfg raw frames).processed_frames
          (effectiveTotalFrames cfg raw) :=
    processLoop_calls_trace _ _ frames _ rfl
  have hP : (processVideoLoop cfg raw frames).processed_frames ≤
      effectiveTotalFrames cfg raw := by
    have := processLoop_processed_le cfg.skip_frames (effectiveTotalFrames cfg raw)
      frames { frame_number := 0, processed_frames := 0, calls := [] }
    simpa [processVideoLoop] using this
  rw [htrace] at hc
  rcases List.mem_map.1 hc with ⟨k, hk, hck⟩
  have hkP : k < (processVideoLoop cfg raw frames).processed_frames :=
    List.mem_range.1 hk
  have hc1 : c.1 = k + 1 := by rw [← hck]
  have hc2 : c.2 = effectiveTotalFrames cfg raw := by rw [← hck]
  have hle : c.1 ≤ c.2 := by
    rw [hc1, hc2]; exact le_trans hkP hP
  have hpos : 0 < c.2 := lt_of_lt_of_le (by omega : 0 < c.1) hle
  refine ⟨htrace, hc2, by omega, hle, ?_⟩
  rw [progressOf, if_pos hpos]

/-- C7 witness: two frames, no stride, no cap — the callback fires twice. -/
theorem progress_callback_per_frame_witness :
    ((1, 2) ∈ (processVideoLoop ⟨0, none⟩ 2 [(), ()]).calls) ∧
    ((processVideoLoop ⟨0, none⟩ 2 [(), ()]).calls =
      callTrace (processVideoLoop ⟨0, none⟩ 2 [(), ()]).processed_frames
        (effectiveTotalFrames ⟨0, none⟩ 2) ∧
    (1, 2).2 = effectiveTotalFrames ⟨0, none⟩ 2 ∧
    1 ≤ (1, 2).1 ∧ (1, 2).1 ≤ (1, 2).2 ∧
    progressOf (1, 2).1 (1, 2).2 = ((1, 2).1 : ℚ) / ((1, 2).2 : ℚ)) :=
  ⟨by decide, progress_callback_per_frame ⟨0, none⟩ 2 [(), ()] (1, 2) (by decide)⟩

/-- C6 counterexample: with `max_frames = 0` configured as the ceiling, Python
truthiness (`if self.config.max_frames:`) ignores the cap, and a one-frame
video gets one processed frame — exceeding the configured ceiling of 0. -/
theorem maxFrames_zero_ceiling_exceeded :
    (processVideoLoop ⟨0, some 0⟩ 1 [()]).processed_frames = 1 ∧
    ¬ ((processVideoLoop ⟨0, some 0⟩ 1 [()]).processed_frames ≤ 0) := by
  decide

/-- C6 (amended): for every positive configured max-frame ceiling, the frame
loop processes at most that many frames — and never more than the video's
reported frame count, nor more than the frames actually readable. -/
theorem maxFrames_bounds_processed (cfg : PipelineConfig) (raw : ℕ)
    (frames : List Unit) (m : ℕ) (hm : cfg.max_frames = some m) (hpos : 0 < m) :
    (processVideoLoop cfg raw frames).processed_frames ≤ m ∧
    (processVideoLoop cfg raw frames).processed_frames ≤ raw ∧
    (processVideoLoop cfg raw frames).processed_frames ≤ frames.length := by
  have hP : (processVideoLoop cfg raw frames).processed_frames ≤
      effectiveTotalFrames cfg raw := by
    have := processLoop_processed_le cfg.skip_frames (effectiveTotalFrames cfg raw)
      frames { frame_number := 0, processed_frames := 0, calls := [] }
    simpa [processVideoLoop] using this
  have htot : effectiveTotalFrames cfg raw = min raw m := by
    rw [effectiveTotalFrames, hm]
    simp [Nat.pos_iff_ne_zero.1 hpos]
  have hlen : (processVideoLoop cfg raw frames).processed_frames ≤ frames.length := by
    have := processLoop_processed_le_length cfg.skip_frames
      (effectiveTotalFrames cfg raw) frames
      { frame_number := 0, processed_frames := 0, calls := [] }
    simpa [processVideoLoop] using this
  rw [htot] at hP
  exact ⟨le_trans hP (Nat.min_le_right _ _), le_trans hP (Nat.min_le_left _ _), hlen⟩

/-- C6 witness: ceiling 3 on a 5-frame video. -/
theorem maxFrames_bounds_processed_witness :
    (⟨0, some 3⟩ : PipelineConfig).max_frames = some 3 ∧ 0 < 3 ∧
    ((processVideoLoop ⟨0, some 3⟩ 5 [(), (), (), (), ()]).processed_frames ≤ 3 ∧
     (processVideoLoop ⟨0, some 3⟩ 5 [(), (), (), (), ()]).processed_frames ≤ 5 ∧
     (processVideoLoop ⟨0, some 3⟩ 5 [(), (), (), (), ()]).processed_frames ≤
       ([(), (), (), (), ()] : List Unit).length) :=
  ⟨rfl, by decide,
    maxFrames_bounds_processed ⟨0, some 3⟩ 5 [(), (), (), (), ()] 3 rfl (by decide)⟩

/-! ### Empty-frame behaviour of the engine and wrapper -/

lemma candidates_nil_dets (th : ℚ) (tracks : List Track) :
    candidates th tracks [] = [] := by
  simp [candidates]

lemma greedyMatch_nil_dets (th : ℚ) :
    ∀ (fuel : ℕ) (tracks : List Track), greedyMatch th fuel tracks [] = []
  | 0, _ => rfl
  | fuel + 1, tracks => by
      simp [greedyMatch, candidates_nil_dets, pickBest]

lemma matchesOf_nil (s : EngineState) : matchesOf s [] = [] := by
  simp [matchesOf, highDets, lowDets, greedyMatch_nil_dets]

lemma unmatchedHigh_nil (s : EngineState) : unmatchedHigh s [] = [] := by
  simp [unmatchedHigh, highDets, matchesOf_nil]

lemma freshTracks_nil (s : EngineState) : freshTracks s [] = [] := by
  simp [freshTracks, unmatchedHigh_nil]

lemma stepTrack_nil_fun : stepTrack [] = ageTrack := by
  funext b t
  rfl

/-- With zero detections the engine skips matching entirely: no output rows,
no fresh tracks, and every existing track goes down the miss-increment path. -/
lemma byteUpdate_nil (s : EngineState) :
    byteUpdate s [] =
      ([], { s with tracks := s.tracks.filterMap (ageTrack s.track_buffer) }) := by
  unfold byteUpdate
  simp only [List.enum_nil, matchesOf_nil, stepTrack_nil_fun, freshTracks_nil,
    unmatchedHigh_nil, List.filterMap_nil, List.append_nil, List.length_nil,
    Nat.add_zero]

/-- Evaluates `ObjectTracker.update` on an empty detection list: empty output, engine
tracks only aged, frame counter advanced. -/
lemma update_nil (t : ObjectTracker) (fn : Option ℕ) :
    t.update [] fn =
      ([], { t with
             engine := { t.engine with
                         tracks := t.engine.tracks.filterMap
                           (ageTrack t.engine.track_buffer) }
             current_frame := resolveFrame t.current_frame fn }) := by
  unfold ObjectTracker.update ObjectTracker.updateWith byteBackend
  simp [byteUpdate_nil]

lemma run_allEmpty :
    ∀ (seq : List (List Detection × Option ℕ)) (t : ObjectTracker),
      (∀ f ∈ seq, f.1 = []) →
      (∀ outs ∈ (t.run seq).1, outs = []) ∧
      (t.engine.tracks = [] → (t.run seq).2.engine.tracks = []) := by
  intro seq
  induction seq with
  | nil =>
    intro t _
    exact ⟨fun outs h => absurd h (List.not_mem_nil _), fun h => h⟩
  | cons f fs ih =>
    intro t hseq
    have hf : f.1 = [] := hseq f (List.mem_cons_self _ _)
    have htail : ∀ g ∈ fs, g.1 = [] := fun g hg => hseq g (List.mem_cons_of_mem _ hg)
    constructor
    · intro outs houts
      simp only [ObjectTracker.run, hf, update_nil] at houts
      rcases List.mem_cons.1 houts with h | h
      · exact h
      · exact (ih _ htail).1 outs h
    · intro htracks
      simp only [ObjectTracker.run, hf, update_nil]
      exact (ih _ htail).2 (by simp [htracks])

/-- C1: over any input sequence whose every frame has zero detections, every
call of `ObjectTracker.update` returns the empty list of tracked detections
(no exception escapes — the embedding is total); each empty-detection frame
still performs a tracker update in which existing tracks are only aged by the
miss-increment path; and a tracker that starts with zero tracks still has zero
tracks at the end of the run. -/
theorem emptyFrames_produce_no_tracks (t : ObjectTracker)
    (seq : List (List Detection × Option ℕ)) (fn : Option ℕ)
    (outs : List TrackedDetection)
    (hseq : ∀ f ∈ seq, f.1 = []) (houts : outs ∈ (t.run seq).1) :
    outs = [] ∧
    t.update [] fn =
      ([], { t with
             engine := { t.engine with
                         tracks := t.engine.tracks.filterMap
                           (ageTrack t.engine.track_buffer) }
             current_frame := resolveFrame t.current_frame fn }) ∧
    (t.engine.tracks = [] → (t.run seq).2.engine.tracks = []) :=
  ⟨(run_allEmpty seq t hseq).1 outs houts, update_nil t fn,
    (run_allEmpty seq t hseq).2⟩

/-- C1 witness: a fresh player tracker over two empty frames. -/
theorem emptyFrames_produce_no_tracks_witness :
    (∀ f ∈ [(([] : List Detection), some 0), (([] : List Detection), some 1)],
      f.1 = []) ∧
    (([] : List TrackedDetection) ∈
      ((mkObjectTracker (3/10) 30 (8/10) 30).run
        [(([] : List Detection), some 0), (([] : List Detection), some 1)]).1) ∧
    (([] : List TrackedDetection) = [] ∧
     (mkObjectTracker (3/10) 30 (8/10) 30).update [] (some 5) =
       ([], { mkObjectTracker (3/10) 30 (8/10) 30 with
              engine := { (mkObjectTracker (3/10) 30 (8/10) 30).engine with
                          tracks := (mkObjectTracker (3/10) 30 (8/10)
                            30).engine.tracks.filterMap
                            (ageTrack (mkObjectTracker (3/10) 30 (8/10)
                              30).engine.track_buffer) }
              current_frame := resolveFrame
                (mkObjectTracker (3/10) 30 (8/10) 30).current_frame (some 5) }) ∧
     ((mkObjectTracker (3/10) 30 (8/10) 30).engine.tracks = [] →
       ((mkObjectTracker (3/10) 30 (8/10) 30).run
         [(([] : List Detection), some 0), (([] : List Detection), some 1)]).2.engine.tracks = [])) :=
  ⟨by decide, by decide,
    emptyFrames_produce_no_tracks (mkObjectTracker (3/10) 30 (8/10) 30)
      [(([] : List Detection), some 0), (([] : List Detection), some 1)]
      (some 5) [] (by decide) (by decide)⟩

/-! ### Track-id discipline of the Association Engine -/

lemma stepTrack_id {mts : List (Track × ℕ × SvDet)} {b : ℕ} {t u : Track}
    (h : stepTrack mts b t = some u) : u.id = t.id := by
  unfold stepTrack at h
  split at h
  · injection h with h
    subst h
    rfl
  · unfold ageTrack at h
    split at h
    · exact absurd h (by simp)
    · injection h with h
      subst h
      rfl

lemma mem_enum_fst_lt {α : Type} {l : List α} {q : ℕ × α} (h : q ∈ l.enum) :
    q.1 < l.length := by
  have hget := List.mem_enum_iff_get?.1 h
  rcases List.get?_eq_some.1 hget with ⟨hlt, _⟩
  exact hlt

lemma enum_pairwise_fst {α : Type} (l : List α) :
    l.enum.Pairwise (fun p q : ℕ × α => p.1 < q.1) := by
  have h1 : (l.enum.map Prod.fst).Pairwise (fun a b : ℕ => a < b) := by
    rw [List.enum_eq_enumFrom, List.enumFrom_map_fst]
    exact List.pairwise_lt_range' 0 l.length
  exact List.pairwise_map.1 h1

lemma mem_freshTracks {s : EngineState} {idets : List (ℕ × SvDet)} {u : Track}
    (h : u ∈ freshTracks s idets) :
    s.nextId ≤ u.id ∧ u.id < s.nextId + (unmatchedHigh s idets).length := by
  rcases List.mem_map.1 h with ⟨q, hq, rfl⟩
  exact ⟨Nat.le_add_right _ _, Nat.add_lt_add_left (mem_enum_fst_lt hq) _⟩

lemma freshTracks_pairwise (s : EngineState) (idets : List (ℕ × SvDet)) :
    (freshTracks s idets).Pairwise (fun a b => a.id < b.id) := by
  unfold freshTracks
  rw [List.pairwise_map]
  exact (enum_pairwise_fst (unmatchedHigh s idets)).imp
    fun hab => Nat.add_lt_add_left hab _

lemma mem_survivors {mts : List (Track × ℕ × SvDet)} {b : ℕ} {tr : List Track}
    {u : Track} (h : u ∈ tr.filterMap (stepTrack mts b)) :
    ∃ t ∈ tr, u.id = t.id := by
  rcases List.mem_filterMap.1 h with ⟨t, ht, hstep⟩
  exact ⟨t, ht, stepTrack_id hstep⟩

lemma survivors_pairwise (mts : List (Track × ℕ × SvDet)) (b : ℕ)
    {tr : List Track} (h : tr.Pairwise (fun a c => a.id < c.id)) :
    (tr.filterMap (stepTrack mts b)).Pairwise (fun a c => a.id < c.id) := by
  rw [List.pairwise_filterMap]
  refine h.imp ?_
  intro a c hac x hx y hy
  rw [Option.mem_def] at hx hy
  rw [stepTrack_id hx, stepTrack_id hy]
  exact hac

lemma byteUpdate_tracks_eq (s : EngineState) (dets : List SvDet) :
    (byteUpdate s dets).2.tracks =
      s.tracks.filterMap (stepTrack (matchesOf s dets.enum) s.track_buffer) ++
        freshTracks s dets.enum := rfl

lemma byteUpdate_nextId_eq (s : EngineState) (dets : List SvDet) :
    (byteUpdate s dets).2.nextId =
      s.nextId + (unmatchedHigh s dets.enum).length := rfl

lemma byteUpdate_nextId_mono (s : EngineState) (dets : List SvDet) :
    s.nextId ≤ (byteUpdate s dets).2.nextId := by
  rw [byteUpdate_nextId_eq]
  exact Nat.le_add_right _ _

lemma byteUpdate_mem_tracks {s : EngineState} {dets : List SvDet} {u : Track}
    (h : u ∈ (byteUpdate s dets).2.tracks) :
    (∃ t ∈ s.tracks, u.id = t.id) ∨ s.nextId ≤ u.id := by
  rw [byteUpdate_tracks_eq] at h
  rcases List.mem_append.1 h with h | h
  · exact Or.inl (mem_survivors h)
  · exact Or.inr (mem_freshTracks h).1

lemma byteUpdate_preserves_inv {s : EngineState} (dets : List SvDet)
    (h : EngineInv s) : EngineInv (byteUpdate s dets).2 := by
  obtain ⟨hpw, hlt⟩ := h
  constructor
  · rw [byteUpdate_tracks_eq, List.pairwise_append]
    refine ⟨survivors_pairwise _ _ hpw, freshTracks_pairwise _ _, ?_⟩
    intro a ha b hb
    rcases mem_survivors ha with ⟨t, ht, hat⟩
    exact lt_of_lt_of_le (hat ▸ hlt t ht) (mem_freshTracks hb).1
  · intro u hu
    rw [byteUpdate_nextId_eq]
    rw [byteUpdate_tracks_eq] at hu
    rcases List.mem_append.1 hu with h | h
    · rcases mem_survivors h with ⟨t, ht, hut⟩
      exact lt_of_lt_of_le (hut ▸ hlt t ht) (Nat.le_add_right _ _)
    · exact (mem_freshTracks h).2

lemma byteUpdate_dead_id {s : EngineState} {i : ℕ} (dets : List SvDet)
    (hi : i < s.nextId) (hd : ∀ t ∈ s.tracks, t.id ≠ i) :
    i < (byteUpdate s dets).2.nextId ∧
    ∀ u ∈ (byteUpdate s dets).2.tracks, u.id ≠ i := by
  refine ⟨lt_of_lt_of_le hi (byteUpdate_nextId_mono s dets), ?_⟩
  intro u hu
  rcases byteUpdate_mem_tracks hu with ⟨t, ht, hut⟩ | hge
  · rw [hut]
    exact hd t ht
  · omega

lemma runEngine_dead_id :
    ∀ (frames : List (List SvDet)) (s : EngineState) (i : ℕ),
      i < s.nextId → (∀ t ∈ s.tracks, t.id ≠ i) →
      ∀ u ∈ (runEngine s frames).tracks, u.id ≠ i := by
  intro frames
  induction frames with
  | nil => intro s i _ hd u hu; exact hd u hu
  | cons d ds ih =>
    intro s i hi hd
    have h := byteUpdate_dead_id d hi hd
    exact ih _ i h.1 h.2

/-- C3: the engine's id discipline.  On any update from a state satisfying the
id invariant: the invariant is preserved (ids stay strictly ascending, hence
unique, and below the counter); an existing track carried through a frame by
`stepTrack` keeps its id unchanged (so a `Confirmed` track's id never
changes); every track in the successor state either bears the id of an
existing track or a fresh id at or above the old counter; the counter never
decreases; and an id that is already dead (absent but below the counter — a
`Removed` track's id) is never borne by any track after any further run of
frames, so removed ids are never reassigned. -/
theorem track_ids_unique_stable_never_reused (s : EngineState)
    (dets : List SvDet) (frames : List (List SvDet)) (u w t₀ u₀ : Track)
    (i : ℕ) (hinv : EngineInv s)
    (hu : u ∈ (byteUpdate s dets).2.tracks)
    (hstep : stepTrack (matchesOf s dets.enum) s.track_buffer t₀ = some u₀)
    (hi : i < s.nextId) (hdead : ∀ t ∈ s.tracks, t.id ≠ i)
    (hw : w ∈ (runEngine s frames).tracks) :
    EngineInv (byteUpdate s dets).2 ∧
    u₀.id = t₀.id ∧
    ((∃ t ∈ s.tracks, u.id = t.id) ∨ s.nextId ≤ u.id) ∧
    s.nextId ≤ (byteUpdate s dets).2.nextId ∧
    w.id ≠ i :=
  ⟨byteUpdate_preserves_inv dets hinv, stepTrack_id hstep,
    byteUpdate_mem_tracks hu, byteUpdate_nextId_mono s dets,
    runEngine_dead_id frames s i hi hdead w hw⟩

/-- C3 witness: a state whose counter sits at 3 with ids 1 and 2 dead; one
fresh detection spawns track 3, and id 2 is never reassigned. -/
theorem track_ids_unique_stable_never_reused_witness :
    EngineInv exampleEngine ∧
    newTrack 3 exampleSv ∈ (byteUpdate exampleEngine [exampleSv]).2.tracks ∧
    stepTrack (matchesOf exampleEngine [exampleSv].enum)
        exampleEngine.track_buffer (newTrack 3 exampleSv) =
      some { newTrack 3 exampleSv with misses := 1, state := .Lost } ∧
    2 < exampleEngine.nextId ∧
    (∀ t ∈ exampleEngine.tracks, t.id ≠ 2) ∧
    newTrack 3 exampleSv ∈ (runEngine exampleEngine [[exampleSv]]).tracks ∧
    (EngineInv (byteUpdate exampleEngine [exampleSv]).2 ∧
     ({ newTrack 3 exampleSv with misses := 1, state := .Lost } : Track).id =
       (newTrack 3 exampleSv).id ∧
     ((∃ t ∈ exampleEngine.tracks, (newTrack 3 exampleSv).id = t.id) ∨
       exampleEngine.nextId ≤ (newTrack 3 exampleSv).id) ∧
     exampleEngine.nextId ≤ (byteUpdate exampleEngine [exampleSv]).2.nextId ∧
     (newTrack 3 exampleSv).id ≠ 2) := by
  have h1 : (byteUpdate exampleEngine [exampleSv]).2.tracks =
      [newTrack 3 exampleSv] := rfl
  have h2 : (runEngine exampleEngine [[exampleSv]]).tracks =
      [newTrack 3 exampleSv] := rfl
  have hm1 : newTrack 3 exampleSv ∈ (byteUpdate exampleEngine [exampleSv]).2.tracks := by
    rw [h1]
    exact List.mem_singleton.2 rfl
  have hm2 : newTrack 3 exampleSv ∈ (runEngine exampleEngine [[exampleSv]]).tracks := by
    rw [h2]
    exact List.mem_singleton.2 rfl
  have hstep : stepTrack (matchesOf exampleEngine [exampleSv].enum)
      exampleEngine.track_buffer (newTrack 3 exampleSv) =
      some { newTrack 3 exampleSv with misses := 1, state := .Lost } := rfl
  have hinv : EngineInv exampleEngine := ⟨List.Pairwise.nil, by simp [exampleEngine]⟩
  have hdead : ∀ t ∈ exampleEngine.tracks, t.id ≠ 2 := by simp [exampleEngine]
  exact ⟨hinv, hm1, hstep, by decide, hdead, hm2,
    track_ids_unique_stable_never_reused exampleEngine [exampleSv]
      [[exampleSv]] (newTrack 3 exampleSv) (newTrack 3 exampleSv)
      (newTrack 3 exampleSv)
      { newTrack 3 exampleSv with misses := 1, state := .Lost } 2
      hinv hm1 hstep (by decide) hdead hm2⟩

end SoccerAnalyzer
